import Mathlib

/-!
Verification development for the siyuan-share asset synchronization engine.

The definitions below are a shallow embedding of the plugin's TypeScript
source: the S3 upload service (`s3-upload.ts`), the asset record manager
(`asset-record.ts`) and the asset-processing part of the share service
(`share-service.ts`).  Machine integers are modelled as `Nat` with explicit
`% 2^32` (resp. `% 256`) where the JavaScript code operates on 32-bit words
(resp. bytes).  Asynchronous network effects are modelled by passing the
observed transport outcome (the XMLHttpRequest event, the forwardProxy fetch
verdict) as an explicit argument.
-/

namespace SiyuanShare

/-- 2^32, the modulus for 32-bit word arithmetic. -/
def wordMod : Nat := 4294967296

/-- Truncate to a 32-bit word. -/
def w32 (n : Nat) : Nat := n % wordMod

/-- 32-bit right rotation (assumes `x < 2^32`). -/
def rotr32 (n x : Nat) : Nat := w32 ((x >>> n) ||| (x <<< (32 - n)))

/-- 32-bit left rotation (assumes `x < 2^32`). -/
def rotl32 (n x : Nat) : Nat := w32 ((x <<< n) ||| (x >>> (32 - n)))

/-- Bitwise complement on 32-bit words: xor with the all-ones word. -/
def not32 (x : Nat) : Nat := x ^^^ 4294967295

/-- Big-endian bytes of one 32-bit word, each reduced `% 256`
(`new Uint8Array(buffer)` view of the digest). -/
def wordBytes (wd : Nat) : List Nat :=
  [(wd >>> 24) % 256, (wd >>> 16) % 256, (wd >>> 8) % 256, wd % 256]

/-- Combine big-endian byte quadruples into 32-bit words. -/
def bytesToWords : List Nat → List Nat
  | b0 :: b1 :: b2 :: b3 :: rest =>
      (b0 * 16777216 + b1 * 65536 + b2 * 256 + b3) :: bytesToWords rest
  | _ => []

/-- Split a byte list into 64-byte blocks (worker, structurally recursive on a
fuel bound that the wrapper instantiates with the list length). -/
def chunks64Go : Nat → List Nat → List (List Nat)
  | 0, _ => []
  | _, [] => []
  | fuel + 1, l => l.take 64 :: chunks64Go fuel (l.drop 64)

/-- Split a byte list into 64-byte blocks. -/
def chunks64 (l : List Nat) : List (List Nat) := chunks64Go l.length l

/-- Eight big-endian bytes of the 64-bit message bit length. -/
def lenBytes64 (bits : Nat) : List Nat :=
  [(bits >>> 56) % 256, (bits >>> 48) % 256, (bits >>> 40) % 256,
   (bits >>> 32) % 256, (bits >>> 24) % 256, (bits >>> 16) % 256,
   (bits >>> 8) % 256, bits % 256]

/-- Merkle–Damgard padding shared by SHA-1 and SHA-256 (FIPS 180-4):
append `0x80`, zero-fill to 56 mod 64, append the bit length. -/
def shaPad (msg : List Nat) : List Nat :=
  let r := (msg.length + 1) % 64
  msg ++ [128] ++ List.replicate ((120 - r) % 64) 0 ++ lenBytes64 (msg.length * 8)

/-- SHA-256 working state: eight 32-bit words. -/
structure Digest8 where
  e0 : Nat
  e1 : Nat
  e2 : Nat
  e3 : Nat
  e4 : Nat
  e5 : Nat
  e6 : Nat
  e7 : Nat
deriving Repr, DecidableEq

/-- SHA-256 round constants (FIPS 180-4), written in decimal. -/
def sha256K : List Nat :=
  [1116352408, 1899447441, 3049323471, 3921009573,
   961987163, 1508970993, 2453635748, 2870763221,
   3624381080, 310598401, 607225278, 1426881987,
   1925078388, 2162078206, 2614888103, 3248222580,
   3835390401, 4022224774, 264347078, 604807628,
   770255983, 1249150122, 1555081692, 1996064986,
   2554220882, 2821834349, 2952996808, 3210313671,
   3336571891, 3584528711, 113926993, 338241895,
   666307205, 773529912, 1294757372, 1396182291,
   1695183700, 1986661051, 2177026350, 2456956037,
   2730485921, 2820302411, 3259730800, 3345764771,
   3516065817, 3600352804, 4094571909, 275423344,
   430227734, 506948616, 659060556, 883997877,
   958139571, 1322822218, 1537002063, 1747873779,
   1955562222, 2024104815, 2227730452, 2361852424,
   2428436474, 2756734187, 3204031479, 3329325298]

/-- SHA-256 initial hash value (FIPS 180-4), written in decimal. -/
def sha256Init : Digest8 :=
  ⟨1779033703, 3144134277, 1013904242, 2773480762,
   1359893119, 2600822924, 528734635, 1541459225⟩

/-- SHA-256 small sigma 0. -/
def ssig0 (x : Nat) : Nat := (rotr32 7 x) ^^^ (rotr32 18 x) ^^^ (x >>> 3)

/-- SHA-256 small sigma 1. -/
def ssig1 (x : Nat) : Nat := (rotr32 17 x) ^^^ (rotr32 19 x) ^^^ (x >>> 10)

/-- SHA-256 big sigma 0. -/
def bsig0 (x : Nat) : Nat := (rotr32 2 x) ^^^ (rotr32 13 x) ^^^ (rotr32 22 x)

/-- SHA-256 big sigma 1. -/
def bsig1 (x : Nat) : Nat := (rotr32 6 x) ^^^ (rotr32 11 x) ^^^ (rotr32 25 x)

/-- Choice function. -/
def chFn (x y z : Nat) : Nat := (x &&& y) ^^^ ((not32 x) &&& z)

/-- Majority function. -/
def majFn (x y z : Nat) : Nat := (x &&& y) ^^^ (x &&& z) ^^^ (y &&& z)

/-- Extend a message schedule by one word (SHA-256 recurrence). -/
def sha256ExtendStep (ws : List Nat) : List Nat :=
  let n := ws.length
  ws ++ [w32 (ssig1 (ws.getD (n - 2) 0) + ws.getD (n - 7) 0 +
              ssig0 (ws.getD (n - 15) 0) + ws.getD (n - 16) 0)]

/-- Full 64-word SHA-256 message schedule from a 16-word block. -/
def sha256Schedule (block : List Nat) : List Nat :=
  (List.range 48).foldl (fun ws _ => sha256ExtendStep ws) block

/-- One SHA-256 compression round; `wk` is the (schedule word, constant) pair. -/
def sha256Round (st : Digest8) (wk : Nat × Nat) : Digest8 :=
  let t1 := w32 (st.e7 + bsig1 st.e4 + chFn st.e4 st.e5 st.e6 + wk.2 + wk.1)
  let t2 := w32 (bsig0 st.e0 + majFn st.e0 st.e1 st.e2)
  ⟨w32 (t1 + t2), st.e0, st.e1, st.e2, w32 (st.e3 + t1), st.e4, st.e5, st.e6⟩

/-- Process one 64-byte block. -/
def sha256Block (st : Digest8) (block : List Nat) : Digest8 :=
  let ws := sha256Schedule (bytesToWords block)
  let r := (ws.zip sha256K).foldl sha256Round st
  ⟨w32 (st.e0 + r.e0), w32 (st.e1 + r.e1), w32 (st.e2 + r.e2), w32 (st.e3 + r.e3),
   w32 (st.e4 + r.e4), w32 (st.e5 + r.e5), w32 (st.e6 + r.e6), w32 (st.e7 + r.e7)⟩

/-- Serialize the final state to the 32 digest bytes. -/
def digestBytes8 (st : Digest8) : List Nat :=
  wordBytes st.e0 ++ wordBytes st.e1 ++ wordBytes st.e2 ++ wordBytes st.e3 ++
  wordBytes st.e4 ++ wordBytes st.e5 ++ wordBytes st.e6 ++ wordBytes st.e7

/-- SHA-256 digest of a byte sequence (models `crypto.subtle.digest` with
algorithm SHA-256), as a list of 32 bytes. -/
def sha256 (msg : List Nat) : List Nat :=
  digestBytes8 ((chunks64 (shaPad msg)).foldl sha256Block sha256Init)

/-- SHA-1 working state: five 32-bit words. -/
structure Digest5 where
  a : Nat
  b : Nat
  c : Nat
  d : Nat
  e : Nat
deriving Repr, DecidableEq

/-- SHA-1 initial hash value (FIPS 180-4), written in decimal. -/
def sha1Init : Digest5 :=
  ⟨1732584193, 4023233417, 2562383102, 271733878, 3285377520⟩

/-- SHA-1 round function, depending on the round index. -/
def sha1F (i b c d : Nat) : Nat :=
  if i < 20 then (b &&& c) ||| ((not32 b) &&& d)
  else if i < 40 then b ^^^ c ^^^ d
  else if i < 60 then (b &&& c) ||| (b &&& d) ||| (c &&& d)
  else b ^^^ c ^^^ d

/-- SHA-1 round constant (decimal), depending on the round index. -/
def sha1KOf (i : Nat) : Nat :=
  if i < 20 then 1518500249
  else if i < 40 then 1859775393
  else if i < 60 then 2400959708
  else 3395469782

/-- Extend a SHA-1 message schedule by one word. -/
def sha1ExtendStep (ws : List Nat) : List Nat :=
  let n := ws.length
  ws ++ [rotl32 1 ((ws.getD (n - 3) 0) ^^^ (ws.getD (n - 8) 0) ^^^
                   (ws.getD (n - 14) 0) ^^^ (ws.getD (n - 16) 0))]

/-- Full 80-word SHA-1 message schedule from a 16-word block. -/
def sha1Schedule (block : List Nat) : List Nat :=
  (List.range 64).foldl (fun ws _ => sha1ExtendStep ws) block

/-- One SHA-1 compression round; `iw` is the (round index, schedule word) pair. -/
def sha1Round (st : Digest5) (iw : Nat × Nat) : Digest5 :=
  let t := w32 (rotl32 5 st.a + sha1F iw.1 st.b st.c st.d + st.e + sha1KOf iw.1 + iw.2)
  ⟨t, st.a, rotl32 30 st.b, st.c, st.d⟩

/-- Process one 64-byte block for SHA-1. -/
def sha1Block (st : Digest5) (block : List Nat) : Digest5 :=
  let ws := sha1Schedule (bytesToWords block)
  let r := (ws.enum).foldl sha1Round st
  ⟨w32 (st.a + r.a), w32 (st.b + r.b), w32 (st.c + r.c), w32 (st.d + r.d), w32 (st.e + r.e)⟩

/-- Serialize the final SHA-1 state to the 20 digest bytes. -/
def digestBytes5 (st : Digest5) : List Nat :=
  wordBytes st.a ++ wordBytes st.b ++ wordBytes st.c ++ wordBytes st.d ++ wordBytes st.e

/-- SHA-1 digest of a byte sequence (models `crypto.subtle` HMAC hash SHA-1's
underlying compression), as a list of 20 bytes. -/
def sha1 (msg : List Nat) : List Nat :=
  digestBytes5 ((chunks64 (shaPad msg)).foldl sha1Block sha1Init)

/-- HMAC (RFC 2104) over an abstract hash with the given block size; this is
what `crypto.subtle.importKey`/`sign` with an HMAC algorithm computes. -/
def hmac (hashFn : List Nat → List Nat) (blockSize : Nat) (key msg : List Nat) : List Nat :=
  let k0 := if key.length > blockSize then hashFn key else key
  let kPad := k0 ++ List.replicate (blockSize - k0.length) 0
  hashFn ((kPad.map (fun b => b ^^^ 92)) ++ hashFn ((kPad.map (fun b => b ^^^ 54)) ++ msg))

/-- HMAC-SHA256 on bytes. -/
def hmacSha256Bytes (key msg : List Nat) : List Nat := hmac sha256 64 key msg

/-- HMAC-SHA1 on bytes. -/
def hmacSha1Bytes (key msg : List Nat) : List Nat := hmac sha1 64 key msg

/-- UTF-8 encoding of one scalar value (what `TextEncoder.encode` emits). -/
def utf8Char (c : Char) : List Nat :=
  let n := c.toNat
  if n < 128 then [n]
  else if n < 2048 then [192 ||| (n >>> 6), 128 ||| (n &&& 63)]
  else if n < 65536 then
    [224 ||| (n >>> 12), 128 ||| ((n >>> 6) &&& 63), 128 ||| (n &&& 63)]
  else
    [240 ||| (n >>> 18), 128 ||| ((n >>> 12) &&& 63),
     128 ||| ((n >>> 6) &&& 63), 128 ||| (n &&& 63)]

/-- UTF-8 encoding of a string (models `new TextEncoder().encode(s)`). -/
def utf8Bytes (s : String) : List Nat := (s.data.map utf8Char).flatten

/-- Lowercase hexadecimal digit for `n < 16`. -/
def hexDigitChar (n : Nat) : Char :=
  if n < 10 then Char.ofNat (48 + n) else Char.ofNat (87 + n)

/-- Minimal-length lowercase hexadecimal digits (worker, structurally
recursive on a fuel bound; the wrapper passes `n` itself as fuel, which is
ample since the digit count of `n` is at most `n`). -/
def natToHexCharsGo : Nat → Nat → List Char
  | 0, n => [hexDigitChar (n % 16)]
  | fuel + 1, n =>
      if n < 16 then [hexDigitChar n]
      else natToHexCharsGo fuel (n / 16) ++ [hexDigitChar (n % 16)]

/-- Minimal-length lowercase hexadecimal digits of `n` (JavaScript
`n.toString(16)` for natural `n`). -/
def natToHexChars (n : Nat) : List Char := natToHexCharsGo n n

/-- JavaScript `b.toString(16)` as a string. -/
def natToHex (n : Nat) : String := ⟨natToHexChars n⟩

/-- One digest byte rendered as two lowercase hex characters, zero-padded
exactly as the source does: `hex.length === 1 ? '0' + hex : hex`. -/
def byteHex (b : Nat) : String :=
  let h := natToHex b
  if h.length = 1 then "0" ++ h else h

/-- Hex string of a byte list: `bytes.map(byteHex).join('')`. -/
def bytesToHex (bs : List Nat) : String := String.join (bs.map byteHex)

/-- Base64 alphabet. -/
def base64Alphabet : List Char :=
  "ABCDEFGHIJKLMNOPQRSTUVWXYZabcdefghijklmnopqrstuvwxyz0123456789+/".data

/-- Base64 digit for `n < 64`. -/
def b64Digit (n : Nat) : Char := base64Alphabet.getD n (Char.ofNat 65)

/-- Base64 encoding of a byte list as characters (models `btoa` applied to the
byte-per-character binary string the source builds). -/
def base64Chars : List Nat → List Char
  | [] => []
  | [b0] => [b64Digit (b0 >>> 2), b64Digit ((b0 &&& 3) <<< 4), Char.ofNat 61, Char.ofNat 61]
  | [b0, b1] =>
      [b64Digit (b0 >>> 2), b64Digit (((b0 &&& 3) <<< 4) ||| (b1 >>> 4)),
       b64Digit ((b1 &&& 15) <<< 2), Char.ofNat 61]
  | b0 :: b1 :: b2 :: rest =>
      b64Digit (b0 >>> 2) :: b64Digit (((b0 &&& 3) <<< 4) ||| (b1 >>> 4)) ::
      b64Digit (((b1 &&& 15) <<< 2) ||| (b2 >>> 6)) :: b64Digit (b2 &&& 63) ::
      base64Chars rest

/-- Base64 encoding of a byte list as a string. -/
def base64Encode (bs : List Nat) : String := ⟨base64Chars bs⟩

/-! ## Data model (`types.ts`) -/

/-- `S3Config` from `types.ts`.  Optional string fields (`customDomain`,
`pathPrefix`, `provider`) are modelled as strings where `""` plays the role of
the absent/falsy value, matching the `cfg.field || default` idiom of the
source. -/
structure S3Config where
  enabled : Bool
  endpoint : String
  region : String
  bucket : String
  accessKeyId : String
  secretAccessKey : String
  customDomain : String
  pathPfx : String
  provider : String
deriving Repr, DecidableEq

/-- `AssetUploadRecord` from `types.ts`. -/
structure AssetUploadRecord where
  localPath : String
  s3Key : String
  s3Url : String
  contentType : String
  size : Nat
  hash : String
  uploadedAt : Nat
deriving Repr, DecidableEq

/-- `DocAssetMapping` from `types.ts`. -/
structure DocAssetMapping where
  docId : String
  shareId : String
  assets : List AssetUploadRecord
  createdAt : Nat
  updatedAt : Nat
deriving Repr, DecidableEq

/-- A browser `File`: name, declared MIME type (`file.type`), byte content.
`file.size` is the byte length of the content. -/
structure JsFile where
  name : String
  mimeType : String
  content : List Nat
deriving Repr, DecidableEq

/-- `file.size`. -/
def JsFile.size (f : JsFile) : Nat := f.content.length

/-! ## Dedup index (`asset-record.ts`)

The `AssetRecordManager` keeps a `Map<string, DocAssetMapping>` keyed by
`docId`, iterated in insertion order.  It is modelled as a `List
DocAssetMapping` in insertion order; map insertion updates the entry in place
and otherwise appends.  Persistence (`save()`) rewrites the whole collection
and is not otherwise observable, so it is not modelled. -/

/-- `getMapping`: `this.mappings.get(docId)`. -/
def getMapping (ms : List DocAssetMapping) (docId : String) : Option DocAssetMapping :=
  ms.find? (fun m => m.docId == docId)

/-- `addOrUpdateMapping(docId, shareId, assets)`: update the existing mapping
in place (keeping `createdAt`) or insert a fresh one. -/
def addOrUpdateMapping (ms : List DocAssetMapping) (docId shareId : String)
    (assets : List AssetUploadRecord) (now : Nat) : List DocAssetMapping :=
  if (getMapping ms docId).isSome then
    ms.map (fun m => if m.docId == docId then
      { m with shareId := shareId, assets := assets, updatedAt := now } else m)
  else
    ms ++ [⟨docId, shareId, assets, now, now⟩]

/-- `removeMapping(docId)`: `this.mappings.delete(docId)`. -/
def removeMapping (ms : List DocAssetMapping) (docId : String) : List DocAssetMapping :=
  ms.filter (fun m => !(m.docId == docId))

/-- `removeMappingByShareId(shareId)`: delete every mapping whose `shareId`
matches. -/
def removeMappingByShareId (ms : List DocAssetMapping) (shareId : String) : List DocAssetMapping :=
  ms.filter (fun m => !(m.shareId == shareId))

/-- `findAssetByHash(hash)`: scan mappings in order, return the first asset
whose `hash` field equals the query.  Note: the match condition is
`a.hash === hash` only. -/
def findAssetByHash (ms : List DocAssetMapping) (hash : String) : Option AssetUploadRecord :=
  ms.findSome? (fun m => m.assets.find? (fun a => a.hash == hash))

/-- `findAssetByLocalPath(localPath)`: scan mappings in order, return the
first asset whose `localPath` field equals the query. -/
def findAssetByLocalPath (ms : List DocAssetMapping) (localPath : String) : Option AssetUploadRecord :=
  ms.findSome? (fun m => m.assets.find? (fun a => a.localPath == localPath))

/-- `removeAssetFromDoc(docId, s3Key)`: drop one asset from one document's
mapping; delete the whole mapping when its asset list becomes empty.  Returns
the new index and the `true/false` result. -/
def removeAssetFromDoc (ms : List DocAssetMapping) (docId s3Key : String) (now : Nat) :
    List DocAssetMapping × Bool :=
  match getMapping ms docId with
  | none => (ms, false)
  | some m =>
    if (m.assets.filter (fun a => !(a.s3Key == s3Key))).length = m.assets.length then
      (ms, false)
    else if (m.assets.filter (fun a => !(a.s3Key == s3Key))).isEmpty then
      (ms.filter (fun x => !(x.docId == docId)), true)
    else
      (ms.map (fun x => if x.docId == docId then
        { x with assets := m.assets.filter (fun a => !(a.s3Key == s3Key)),
                 updatedAt := now } else x), true)

/-- One step of `removeAssets`: filter a mapping's assets against the key set;
`none` models deleting the mapping when it became empty. -/
def removeAssetsStep (keys : List String) (now : Nat) (m : DocAssetMapping) :
    Option DocAssetMapping :=
  let kept := m.assets.filter (fun a => !(keys.contains a.s3Key))
  if kept.length < m.assets.length then
    if kept.isEmpty then none else some { m with assets := kept, updatedAt := now }
  else some { m with assets := kept }

/-- `removeAssets(s3Keys)`: remove the listed keys from every mapping, delete
emptied mappings, and report how many assets were removed. -/
def removeAssets (ms : List DocAssetMapping) (keys : List String) (now : Nat) :
    List DocAssetMapping × Nat :=
  (ms.filterMap (removeAssetsStep keys now),
   (ms.map (fun m => m.assets.length -
      (m.assets.filter (fun a => !(keys.contains a.s3Key))).length)).sum)

/-- The keys `removeAssetsByFilter(filter)` collects (all assets matched by
the predicate) before delegating to `removeAssets`. -/
def keysMatching (ms : List DocAssetMapping)
    (p : AssetUploadRecord → String → Bool) : List String :=
  (ms.map (fun m => (m.assets.filter (fun a => p a m.docId)).map
    (fun a => a.s3Key))).flatten

def removeAssetsByFilter (ms : List DocAssetMapping)
    (p : AssetUploadRecord → String → Bool) (now : Nat) :
    List DocAssetMapping × List String :=
  if (keysMatching ms p).isEmpty then (ms, keysMatching ms p)
  else ((removeAssets ms (keysMatching ms p) now).1, keysMatching ms p)

/-- Keys (document ids) of the index are pairwise distinct. -/
def NodupDocIds (ms : List DocAssetMapping) : Prop :=
  (ms.map (fun m => m.docId)).Nodup

/-- No retained mapping has an empty asset collection. -/
def NoEmptyMapping (ms : List DocAssetMapping) : Prop :=
  ∀ m ∈ ms, m.assets ≠ []

/-- The index invariant claimed by the specification. -/
def IndexInvariant (ms : List DocAssetMapping) : Prop :=
  NodupDocIds ms ∧ NoEmptyMapping ms

instance (ms : List DocAssetMapping) : Decidable (NodupDocIds ms) := by
  unfold NodupDocIds
  infer_instance

instance (ms : List DocAssetMapping) : Decidable (NoEmptyMapping ms) := by
  unfold NoEmptyMapping
  infer_instance

instance (ms : List DocAssetMapping) : Decidable (IndexInvariant ms) := by
  unfold IndexInvariant
  infer_instance

/-! ## String helpers of the upload service (`s3-upload.ts`) -/

/-- `endpoint.replace(/^https?:\/\//, '')`. -/
def stripScheme (s : String) : String :=
  if s.startsWith "https://" then s.drop 8
  else if s.startsWith "http://" then s.drop 7
  else s

/-- `customDomain.replace(/\/$/, '')`: drop a single trailing slash. -/
def stripTrailingSlash (s : String) : String :=
  if s.endsWith "/" then s.dropRight 1 else s

/-- The character `.` (code 46). -/
def dotChar : Char := Char.ofNat 46

/-- `getFileExtension`: `filename.substring(filename.lastIndexOf('.'))` when
the last dot exists at a positive index, else `""`. -/
def getFileExtension (filename : String) : String :=
  let cs := filename.data
  match ((cs.enum.filter (fun p => p.2 == dotChar)).map (fun p => p.1)).getLast? with
  | some i => if 0 < i then ⟨cs.drop i⟩ else ""
  | none => ""

/-- `guessContentType`: extension-based MIME lookup with an
`application/octet-stream` fallback. -/
def guessContentType (filename : String) : String :=
  let ext := (getFileExtension filename).toLower
  if ext = ".jpg" then "image/jpeg"
  else if ext = ".jpeg" then "image/jpeg"
  else if ext = ".png" then "image/png"
  else if ext = ".gif" then "image/gif"
  else if ext = ".webp" then "image/webp"
  else if ext = ".svg" then "image/svg+xml"
  else if ext = ".pdf" then "application/pdf"
  else if ext = ".mp4" then "video/mp4"
  else if ext = ".mp3" then "audio/mpeg"
  else if ext = ".zip" then "application/zip"
  else if ext = ".txt" then "text/plain"
  else if ext = ".md" then "text/markdown"
  else "application/octet-stream"

/-- `validateConfig`: all mandatory configuration fields are truthy. -/
def validateConfig (cfg : S3Config) : Bool :=
  cfg.enabled && cfg.endpoint != "" && cfg.region != "" && cfg.bucket != "" &&
  cfg.accessKeyId != "" && cfg.secretAccessKey != ""

/-- `this.config.provider || 'aws'`. -/
def effectiveProvider (cfg : S3Config) : String :=
  if cfg.provider = "" then "aws" else cfg.provider

/-- Whether the OSS (SimpleHmac) signing variant is selected. -/
def isOssProvider (cfg : S3Config) : Bool := effectiveProvider cfg == "oss"

/-- `file.type || this.guessContentType(file.name)`. -/
def fileContentType (f : JsFile) : String :=
  if f.mimeType = "" then guessContentType f.name else f.mimeType

/-! ## StandardV4 signer (`generateSignedHeaders` in `s3-upload.ts`) -/

/-- A UTC wall-clock instant as the source reads it off a JavaScript `Date`
(`getUTCFullYear`, `getUTCMonth() + 1`, `getUTCDate`, ...). -/
structure UTCDate where
  year : Nat
  month : Nat
  day : Nat
  hour : Nat
  minute : Nat
  second : Nat
deriving Repr, DecidableEq

/-- Two-digit zero padding: `n < 10 ? '0' + n : String(n)`. -/
def pad2 (n : Nat) : String :=
  if n < 10 then "0" ++ toString n else toString n

/-- `formatDateStamp`: `YYYYMMDD`. -/
def formatDateStamp (d : UTCDate) : String :=
  toString d.year ++ pad2 d.month ++ pad2 d.day

/-- `formatAmzDate`: `YYYYMMDDThhmmssZ`. -/
def formatAmzDate (d : UTCDate) : String :=
  formatDateStamp d ++ "T" ++ pad2 d.hour ++ pad2 d.minute ++ pad2 d.second ++ "Z"

/-- Uppercase hexadecimal digit for `n < 16`. -/
def hexDigitUpper (n : Nat) : Char :=
  if n < 10 then Char.ofNat (48 + n) else Char.ofNat (55 + n)

/-- Characters `encodeURIComponent` leaves unescaped (ECMA-262): letters,
digits and `- _ . ! ~ * ' ( )`. -/
def uriUnreservedChar (c : Char) : Bool :=
  (65 ≤ c.toNat && c.toNat ≤ 90) || (97 ≤ c.toNat && c.toNat ≤ 122) ||
  (48 ≤ c.toNat && c.toNat ≤ 57) ||
  [45, 95, 46, 33, 126, 42, 39, 40, 41].contains c.toNat

/-- `encodeURIComponent`: percent-encode the UTF-8 bytes of every reserved
character, uppercase hex. -/
def encodeURIComponent (s : String) : String :=
  ⟨(s.data.map (fun c =>
      if uriUnreservedChar c then [c]
      else ((utf8Char c).map (fun b =>
        [Char.ofNat 37, hexDigitUpper (b / 16), hexDigitUpper (b % 16)])).flatten)).flatten⟩

/-- The host whose name participates in the V4 signature:
`bucket.endpoint` (endpoint with its scheme stripped). -/
def awsHost (cfg : S3Config) : String :=
  cfg.bucket ++ "." ++ stripScheme cfg.endpoint

/-- Canonical URI: each `/`-separated segment of the key URI-encoded. -/
def awsCanonicalUri (key : String) : String :=
  "/" ++ String.intercalate "/" ((key.splitOn "/").map encodeURIComponent)

/-- The literal unsigned-payload sentinel. -/
def payloadSentinel : String := "UNSIGNED-PAYLOAD"

/-- Canonical header block: `host`, `x-amz-content-sha256`, `x-amz-date`,
each `name:value\n`, in this order. -/
def awsCanonicalHeaders (cfg : S3Config) (amzDate : String) : String :=
  "host:" ++ awsHost cfg ++ "\n" ++
  "x-amz-content-sha256:" ++ payloadSentinel ++ "\n" ++
  "x-amz-date:" ++ amzDate ++ "\n"

/-- The semicolon-joined signed header list. -/
def awsSignedHeadersList : String := "host;x-amz-content-sha256;x-amz-date"

/-- The canonical request string. -/
def awsCanonicalRequest (cfg : S3Config) (method key : String) (amzDate : String) : String :=
  method ++ "\n" ++ awsCanonicalUri key ++ "\n" ++ "" ++ "\n" ++
  awsCanonicalHeaders cfg amzDate ++ "\n" ++ awsSignedHeadersList ++ "\n" ++ payloadSentinel

/-- The algorithm identifier. -/
def awsAlgorithm : String := "AWS4-HMAC-SHA256"

/-- Credential scope `date/region/s3/aws4_request`. -/
def awsCredentialScope (cfg : S3Config) (dateStamp : String) : String :=
  dateStamp ++ "/" ++ cfg.region ++ "/s3/aws4_request"

/-- `sha256(message)`: hex digest of a string's UTF-8 bytes. -/
def sha256Hex (s : String) : String := bytesToHex (sha256 (utf8Bytes s))

/-- HMAC-SHA256 of a string message under a byte key. -/
def hmacSha256OfString (key : List Nat) (msg : String) : List Nat :=
  hmacSha256Bytes key (utf8Bytes msg)

/-- `getSignatureKey`: the four-fold HMAC chain
`AWS4+secret → date → region → service → "aws4_request"`. -/
def getSignatureKey (secretKey dateStamp regionName serviceName : String) : List Nat :=
  let kDate := hmacSha256OfString (utf8Bytes ("AWS4" ++ secretKey)) dateStamp
  let kRegion := hmacSha256OfString kDate regionName
  let kService := hmacSha256OfString kRegion serviceName
  hmacSha256OfString kService "aws4_request"

/-- The V4 string-to-sign. -/
def awsStringToSign (cfg : S3Config) (method key : String) (d : UTCDate) : String :=
  awsAlgorithm ++ "\n" ++ formatAmzDate d ++ "\n" ++
  awsCredentialScope cfg (formatDateStamp d) ++ "\n" ++
  sha256Hex (awsCanonicalRequest cfg method key (formatAmzDate d))

/-- The final hex signature. -/
def awsSignature (cfg : S3Config) (method key : String) (d : UTCDate) : String :=
  bytesToHex (hmacSha256OfString
    (getSignatureKey cfg.secretAccessKey (formatDateStamp d) cfg.region "s3")
    (awsStringToSign cfg method key d))

/-- The emitted `Authorization` header value. -/
def awsAuthorization (cfg : S3Config) (method key : String) (d : UTCDate) : String :=
  awsAlgorithm ++ " Credential=" ++ cfg.accessKeyId ++ "/" ++
  awsCredentialScope cfg (formatDateStamp d) ++ ", SignedHeaders=" ++
  awsSignedHeadersList ++ ", Signature=" ++ awsSignature cfg method key d

/-- `generateSignedHeaders(method, key, contentType, contentLength)` for the
aws (StandardV4) provider.  `contentLength` is accepted but unused by the
source, so it is omitted here.  The wall-clock `new Date()` is passed
explicitly.  The returned association list is the emitted header set (the
`Host` header is signed but deliberately not returned). -/
def generateSignedHeaders (cfg : S3Config) (method key contentType : String)
    (d : UTCDate) : List (String × String) :=
  [("Content-Type", contentType),
   ("x-amz-date", formatAmzDate d),
   ("x-amz-content-sha256", payloadSentinel),
   ("Authorization", awsAuthorization cfg method key d)]

/-! ## SimpleHmac signer (`generateOssHeaders` in `s3-upload.ts`) -/

/-- The canonical resource `/bucket/key`. -/
def ossResource (cfg : S3Config) (key : String) : String :=
  "/" ++ cfg.bucket ++ "/" ++ key

/-- The OSS string-to-sign: `[method, contentMD5, contentType, date,
canonicalizedOSSHeaders + resource].join('\n')` with `contentMD5` and
`canonicalizedOSSHeaders` both empty. -/
def ossStringToSign (cfg : S3Config) (method key contentType dateStr : String) : String :=
  String.intercalate "\n" [method, "", contentType, dateStr, "" ++ ossResource cfg key]

/-- `hmacSha1Base64(secret, message)`: a single HMAC-SHA1 keyed by the raw
secret, base64-encoded. -/
def hmacSha1Base64 (secret message : String) : String :=
  base64Encode (hmacSha1Bytes (utf8Bytes secret) (utf8Bytes message))

/-- `generateOssHeaders(method, key, contentType)`.  The wall-clock
`new Date().toUTCString()` (an RFC-1123 date string) is passed explicitly as
`dateStr`. -/
def generateOssHeaders (cfg : S3Config) (method key contentType dateStr : String) :
    List (String × String) :=
  [("Date", dateStr),
   ("Content-Type", if contentType = "" then "application/octet-stream" else contentType),
   ("Authorization", "OSS " ++ cfg.accessKeyId ++ ":" ++
      hmacSha1Base64 cfg.secretAccessKey (ossStringToSign cfg method key contentType dateStr))]

/-- Provider dispatch performed by `performUpload`/`performDelete`:
`provider === 'oss' ? generateOssHeaders(...) : generateSignedHeaders(...)`. -/
def requestHeaders (cfg : S3Config) (method key contentType : String)
    (d : UTCDate) (dateStr : String) : List (String × String) :=
  if isOssProvider cfg then generateOssHeaders cfg method key contentType dateStr
  else generateSignedHeaders cfg method key contentType d

/-! ## Transport (`performUpload`, `uploadViaForwardProxy`, `performDelete`)

The XMLHttpRequest outcome and the forwardProxy fetch verdict are modelled as
explicit inputs: `XhrEvent` is which listener fired (and with what status and
response text), `ProxyVerdict` is the forwardProxy endpoint's verdict, already
carrying the composed error message of the source's json/non-json failure
branches. -/

/-- Which XMLHttpRequest listener fired for a PUT. -/
inductive XhrEvent where
  | response (status : Nat) (body : String)
  | networkError
  | aborted
deriving Repr, DecidableEq

/-- Which XMLHttpRequest listener fired for a DELETE (`performDelete`
registers no abort listener). -/
inductive DeleteXhrEvent where
  | response (status : Nat) (body : String)
  | networkError
deriving Repr, DecidableEq

/-- Verdict of the forwardProxy relay fetch. -/
inductive ProxyVerdict where
  | ok
  | err (msg : String)
deriving Repr, DecidableEq

/-- The direct object URL `https://bucket.endpoint/key`. -/
def objectUrl (cfg : S3Config) (key : String) : String :=
  "https://" ++ cfg.bucket ++ "." ++ stripScheme cfg.endpoint ++ "/" ++ key

/-- The URL a successful upload resolves with: the custom-domain override
(trailing slash stripped) when `customDomain` is truthy, else the direct
object URL.  Both the direct path and the relay path compute exactly this. -/
def finalUrl (cfg : S3Config) (key : String) : String :=
  if cfg.customDomain != "" then stripTrailingSlash cfg.customDomain ++ "/" ++ key
  else objectUrl cfg key

/-- `uploadViaForwardProxy`: fails without a kernel token, otherwise forwards
and on success resolves with the same derived URL as a direct upload. -/
def uploadViaForwardProxy (cfg : S3Config) (key : String) (token : String)
    (verdict : ProxyVerdict) : Except String String :=
  if token = "" then Except.error "forwardProxy 失败：缺少思源内核 Token"
  else match verdict with
    | ProxyVerdict.ok => Except.ok (finalUrl cfg key)
    | ProxyVerdict.err m => Except.error m

/-- Result of a transport operation, together with whether the forwardProxy
relay path was invoked. -/
structure TransportResult (α : Type) where
  result : Except String α
  relayInvoked : Bool
deriving Repr

/-- `performUpload` (transport part): 2xx resolves with the derived URL, a
non-2xx response rejects with status and body, a transport-level failure falls
back to the forwardProxy relay, an abort rejects as cancelled. -/
def performUpload (cfg : S3Config) (key token : String) (e : XhrEvent)
    (verdict : ProxyVerdict) : TransportResult String :=
  match e with
  | XhrEvent.response s body =>
      ⟨if 200 ≤ s ∧ s < 300 then Except.ok (finalUrl cfg key)
       else Except.error ("S3 上传失败: HTTP " ++ toString s ++ " - " ++ body), false⟩
  | XhrEvent.networkError => ⟨uploadViaForwardProxy cfg key token verdict, true⟩
  | XhrEvent.aborted => ⟨Except.error "上传已取消", false⟩

/-- `performDelete` (transport part): 2xx or 404 resolves, any other response
rejects with status and body, a transport-level failure rejects immediately —
no relay fallback exists on this path. -/
def performDelete (cfg : S3Config) (key : String) (e : DeleteXhrEvent) :
    TransportResult Unit :=
  match e with
  | DeleteXhrEvent.response s body =>
      ⟨if (200 ≤ s ∧ s < 300) ∨ s = 404 then Except.ok ()
       else Except.error ("S3 删除失败: HTTP " ++ toString s ++ " - " ++ body), false⟩
  | DeleteXhrEvent.networkError => ⟨Except.error "网络错误，删除失败", false⟩

/-! ## Upload orchestration (`uploadFile`, `uploadFiles`,
`processAndUploadAssets`) -/

/-- `s.substring(0, n)` for ASCII content: the first `n` characters. -/
def substringTo (s : String) (n : Nat) : String := ⟨s.data.take n⟩

/-- `calculateFileHash`: hex SHA-256 of the file bytes, truncated to the
first 16 characters. -/
def calculateFileHash (content : List Nat) : String :=
  substringTo (bytesToHex (sha256 content)) 16

/-- The object key `{pathPrefix || 'siyuan-share'}/{timestamp}-{hash}{ext}`. -/
def s3KeyOf (cfg : S3Config) (now : Nat) (hash fileName : String) : String :=
  (if cfg.pathPfx = "" then "siyuan-share" else cfg.pathPfx) ++ "/" ++
  toString now ++ "-" ++ hash ++ getFileExtension fileName

/-- `uploadFile(file, localPath, onProgress, precomputedHash)`: config gate,
hash (or reuse of the precomputed hash, `""` modelling `undefined`), key
construction, transport, and on success the `AssetUploadRecord`. -/
def uploadFile (cfg : S3Config) (token : String) (f : JsFile)
    (localPath precomputedHash : String) (now : Nat) (e : XhrEvent)
    (verdict : ProxyVerdict) : Except String AssetUploadRecord :=
  if !cfg.enabled then Except.error "S3 存储未启用"
  else if !validateConfig cfg then Except.error "S3 配置不完整"
  else
    let hash := if precomputedHash = "" then calculateFileHash f.content else precomputedHash
    let s3Key := s3KeyOf cfg now hash f.name
    match (performUpload cfg s3Key token e verdict).result with
    | Except.ok url =>
        Except.ok ⟨localPath, s3Key, url, fileContentType f, f.content.length, hash, now⟩
    | Except.error msg => Except.error msg

/-- One file of a batch, together with the transport behaviour the network
exhibits for it. -/
structure BatchItem where
  file : JsFile
  localPath : String
  now : Nat
  direct : XhrEvent
  relay : ProxyVerdict
deriving Repr, DecidableEq

/-- The sequential loop of `uploadFiles`: successes accumulate into `results`,
failures into `errors` (as `localPath: message`), in input order. -/
def uploadFilesGo (cfg : S3Config) (token : String) :
    List BatchItem → List AssetUploadRecord × List String
  | [] => ([], [])
  | it :: rest =>
    match uploadFile cfg token it.file it.localPath "" it.now it.direct it.relay with
    | Except.ok r =>
        (r :: (uploadFilesGo cfg token rest).1, (uploadFilesGo cfg token rest).2)
    | Except.error msg =>
        ((uploadFilesGo cfg token rest).1,
         (it.localPath ++ ": " ++ msg) :: (uploadFilesGo cfg token rest).2)

/-- `uploadFiles(files, onProgress)`: both accumulators of the loop. -/
def uploadFiles (cfg : S3Config) (token : String) (items : List BatchItem) :
    List AssetUploadRecord × List String :=
  uploadFilesGo cfg token items

/-- The value `uploadFiles` actually returns to its caller: the successes
only. -/
def uploadFilesReturn (cfg : S3Config) (token : String) (items : List BatchItem) :
    List AssetUploadRecord :=
  (uploadFiles cfg token items).1

/-- The aggregate error notification `uploadFiles` shows when any file
failed (`showMessage`), `none` when every file succeeded. -/
def uploadFilesMessage (cfg : S3Config) (token : String) (items : List BatchItem) :
    Option String :=
  let es := (uploadFiles cfg token items).2
  if es.isEmpty then none
  else some ("部分文件上传失败:\n" ++ String.intercalate "\n" es)

/-- The environment `processAndUploadAssets` operates in: the kernel token,
the asset fetcher, and the per-path wall clock and transport behaviour. -/
structure UploadEnv where
  token : String
  fetch : String → Option JsFile
  nowAt : String → Nat
  direct : String → XhrEvent
  relay : String → ProxyVerdict

/-- The dedup-and-collect loop of `processAndUploadAssets`: for each asset
path, a hit in the dedup index short-circuits to the recorded asset; otherwise
the file is fetched (a fetch failure drops the path) and queued for upload. -/
def collectAssets (ms : List DocAssetMapping) (fetch : String → Option JsFile) :
    List String → List AssetUploadRecord × List (JsFile × String)
  | [] => ([], [])
  | p :: rest =>
    match findAssetByLocalPath ms p with
    | some a => (a :: (collectAssets ms fetch rest).1, (collectAssets ms fetch rest).2)
    | none =>
      match fetch p with
      | some f => ((collectAssets ms fetch rest).1, (f, p) :: (collectAssets ms fetch rest).2)
      | none => collectAssets ms fetch rest

/-- `processAndUploadAssets` (asset handling): returns the final asset list
(recorded assets first, then fresh upload results, as the source pushes them)
and the list of files actually sent to the network. -/
def processAndUploadAssets (cfg : S3Config) (env : UploadEnv)
    (ms : List DocAssetMapping) (assetPaths : List String) :
    List AssetUploadRecord × List (JsFile × String) :=
  let collected := collectAssets ms env.fetch assetPaths
  let uploaded := uploadFilesReturn cfg env.token (collected.2.map (fun fp =>
    ⟨fp.1, fp.2, env.nowAt fp.2, env.direct fp.2, env.relay fp.2⟩))
  (collected.1 ++ uploaded, collected.2)

/-! ## Helper lemmas -/

set_option maxRecDepth 100000

theorem wordBytes_lt (wd : Nat) : ∀ b ∈ wordBytes wd, b < 256 := by
  intro b hb
  simp only [wordBytes, List.mem_cons, List.not_mem_nil, or_false] at hb
  rcases hb with h | h | h | h <;> subst h <;> exact Nat.mod_lt _ (by decide)

theorem digestBytes8_length (st : Digest8) : (digestBytes8 st).length = 32 := by
  simp [digestBytes8, wordBytes]

theorem digestBytes8_lt (st : Digest8) : ∀ b ∈ digestBytes8 st, b < 256 := by
  intro b hb
  simp only [digestBytes8, List.mem_append, or_assoc] at hb
  rcases hb with h | h | h | h | h | h | h | h <;> exact wordBytes_lt _ _ h

theorem sha256_length (msg : List Nat) : (sha256 msg).length = 32 :=
  digestBytes8_length _

theorem sha256_lt (msg : List Nat) : ∀ b ∈ sha256 msg, b < 256 :=
  digestBytes8_lt _

/-- The sixteen lowercase hexadecimal characters. -/
def hexCharSet : List Char := "0123456789abcdef".data

/-- Character-level test for a lowercase hexadecimal digit. -/
def isHexLowerChar (c : Char) : Bool := hexCharSet.contains c

theorem byteHex_length (b : Nat) (hb : b < 256) : (byteHex b).length = 2 := by
  have h : ∀ x : Fin 256, (byteHex x.val).length = 2 := by decide
  exact h ⟨b, hb⟩

theorem byteHex_chars (b : Nat) (hb : b < 256) :
    ∀ c ∈ (byteHex b).data, isHexLowerChar c = true := by
  have h : ∀ x : Fin 256, (byteHex x.val).data.all isHexLowerChar = true := by decide
  intro c hc
  have h2 := h ⟨b, hb⟩
  rw [List.all_eq_true] at h2
  exact h2 c hc

theorem bytesToHex_nil : bytesToHex [] = "" := rfl

theorem bytesToHex_cons (b : Nat) (rest : List Nat) :
    bytesToHex (b :: rest) = byteHex b ++ bytesToHex rest := by
  apply String.ext
  simp only [bytesToHex, String.join, List.map_cons, List.foldl_cons, String.data_append]
  have go : ∀ (l : List String) (init : String),
      (l.foldl (fun a b => a ++ b) init).data = init.data ++ (l.map String.data).flatten := by
    intro l
    induction l with
    | nil => intro init; simp
    | cons s rest ih =>
        intro init
        simp [ih, String.data_append]
  rw [go, go]
  simp [String.data_append]

theorem bytesToHex_length (bs : List Nat) (hb : ∀ b ∈ bs, b < 256) :
    (bytesToHex bs).length = 2 * bs.length := by
  induction bs with
  | nil => rfl
  | cons b rest ih =>
      rw [bytesToHex_cons, String.length_append,
          byteHex_length b (hb b (List.mem_cons_self b rest)),
          ih (fun x hx => hb x (List.mem_cons_of_mem b hx))]
      simp [List.length_cons]
      ring

theorem bytesToHex_chars (bs : List Nat) (hb : ∀ b ∈ bs, b < 256) :
    ∀ c ∈ (bytesToHex bs).data, isHexLowerChar c = true := by
  induction bs with
  | nil => intro c hc; simp [bytesToHex_nil] at hc
  | cons b rest ih =>
      intro c hc
      rw [bytesToHex_cons, String.data_append, List.mem_append] at hc
      rcases hc with h | h
      · exact byteHex_chars b (hb b (List.mem_cons_self b rest)) c h
      · exact ih (fun x hx => hb x (List.mem_cons_of_mem b hx)) c h

theorem substringTo_length (s : String) (n : Nat) :
    (substringTo s n).length = min n s.length :=
  List.length_take n s.data

theorem substringTo_data (s : String) (n : Nat) :
    (substringTo s n).data = s.data.take n := rfl

theorem intercalate_go_data (s : String) (as : List String) (acc : String) :
    (String.intercalate.go acc s as).data
      = acc.data ++ (as.map (fun b => s.data ++ b.data)).flatten := by
  induction as generalizing acc with
  | nil => simp [String.intercalate.go]
  | cons b bs ih =>
      simp [String.intercalate.go, ih, String.data_append, List.append_assoc]

/-- Sanity check of the SHA-256 embedding against the FIPS 180-4 test
vector for the message `abc`. -/
example : bytesToHex (sha256 (utf8Bytes "abc"))
    = "ba7816bf8f01cfea414140de5dae2223b00361a396177a9cb410ff61f20015ad" := by decide

/-- Sanity check of the HMAC-SHA1/base64 pipeline against the well-known
RFC 2202-style test vector. -/
example : base64Encode (hmacSha1Bytes (utf8Bytes "key")
      (utf8Bytes "The quick brown fox jumps over the lazy dog"))
    = "3nybhbi3iqa8ino29wqQcBydtNk=" := by decide

/-! ## Claims -/

/-- C7: `calculateFileHash` returns exactly the first 16 hexadecimal
characters (lowercase, each byte zero-padded to two digits) of the SHA-256
digest of the blob's full byte content, and it is deterministic: byte-identical
inputs yield equal fingerprints. -/
theorem C7_calculateFileHash_truncated_sha256 (content : List Nat) :
    calculateFileHash content = substringTo (bytesToHex (sha256 content)) 16
    ∧ (calculateFileHash content).length = 16
    ∧ (∀ c ∈ (calculateFileHash content).data, isHexLowerChar c = true)
    ∧ (∀ content2, content = content2 →
        calculateFileHash content = calculateFileHash content2) := by
  refine ⟨rfl, ?_, ?_, ?_⟩
  · rw [calculateFileHash, substringTo_length,
        bytesToHex_length _ (sha256_lt content), sha256_length]
    omega
  · intro c hc
    rw [show calculateFileHash content
          = substringTo (bytesToHex (sha256 content)) 16 from rfl,
        substringTo_data] at hc
    exact bytesToHex_chars _ (sha256_lt content) c (List.take_subset 16 _ hc)
  · intro c2 h
    rw [h]

/-- C7 witness: the theorem instantiated at the empty blob. -/
theorem C7_witness :
    (calculateFileHash []).length = 16 ∧ calculateFileHash [] = calculateFileHash [] :=
  ⟨(C7_calculateFileHash_truncated_sha256 []).2.1,
   (C7_calculateFileHash_truncated_sha256 []).2.2.2 [] rfl⟩

/-- C8: for a DELETE, an HTTP 404 response resolves as success exactly like a
2xx response, and every other non-2xx status rejects with an error carrying
the status code and the response body. -/
theorem C8_delete_404_is_success (cfg : S3Config) (key body : String) (s : Nat) :
    performDelete cfg key (DeleteXhrEvent.response 404 body) = ⟨Except.ok (), false⟩
    ∧ (200 ≤ s → s < 300 →
        performDelete cfg key (DeleteXhrEvent.response s body) = ⟨Except.ok (), false⟩)
    ∧ (¬(200 ≤ s ∧ s < 300) → s ≠ 404 →
        performDelete cfg key (DeleteXhrEvent.response s body)
          = ⟨Except.error ("S3 删除失败: HTTP " ++ toString s ++ " - " ++ body), false⟩) := by
  refine ⟨?_, fun h1 h2 => ?_, fun h1 h2 => ?_⟩
  · show TransportResult.mk (if _ then _ else _) false = _
    rw [if_pos (by omega)]
  · show TransportResult.mk (if _ then _ else _) false = _
    rw [if_pos (Or.inl ⟨h1, h2⟩)]
  · show TransportResult.mk (if _ then _ else _) false = _
    rw [if_neg (by tauto)]

/-- C8 witness: a 404 and a 500 response at concrete inputs. -/
theorem C8_witness :
    performDelete ⟨true, "s3.example.com", "us-east-1", "b", "AK", "SK", "", "", ""⟩
        "k" (DeleteXhrEvent.response 404 "x") = ⟨Except.ok (), false⟩
    ∧ performDelete ⟨true, "s3.example.com", "us-east-1", "b", "AK", "SK", "", "", ""⟩
        "k" (DeleteXhrEvent.response 500 "nope")
      = ⟨Except.error ("S3 删除失败: HTTP " ++ toString (500 : Nat) ++ " - " ++ "nope"), false⟩ :=
  ⟨(C8_delete_404_is_success _ "k" "x" 0).1,
   (C8_delete_404_is_success _ "k" "nope" 500).2.2 (by omega) (by omega)⟩

/-- C10: a transport-level failure of a DELETE is never retried through the
forwardProxy relay — `performDelete` rejects immediately with the network
error and never invokes the relay, while on the PUT path the relay is invoked
exactly when the direct transport fails. -/
theorem C10_delete_never_relays (cfg : S3Config) (key token : String)
    (e : DeleteXhrEvent) (e2 : XhrEvent) (verdict : ProxyVerdict) :
    (performDelete cfg key e).relayInvoked = false
    ∧ performDelete cfg key DeleteXhrEvent.networkError
        = ⟨Except.error "网络错误，删除失败", false⟩
    ∧ ((performUpload cfg key token e2 verdict).relayInvoked = true
        ↔ e2 = XhrEvent.networkError) := by
  refine ⟨?_, rfl, ?_⟩
  · cases e <;> rfl
  · cases e2 <;> simp [performUpload]

/-- C1: under the StandardV4 (aws) provider the emitted headers come from
`generateSignedHeaders`; its canonical header block consists of the `host`
header (`host = bucket.endpoint`), `x-amz-content-sha256` and `x-amz-date`
in strict alphabetical order, and the `SignedHeaders` list embedded in the
`Authorization` header is exactly `host;x-amz-content-sha256;x-amz-date`. -/
theorem C1_v4_host_header_signed (cfg : S3Config)
    (method key contentType dateStr : String) (d : UTCDate)
    (haws : isOssProvider cfg = false) :
    requestHeaders cfg method key contentType d dateStr
        = generateSignedHeaders cfg method key contentType d
    ∧ awsHost cfg = cfg.bucket ++ "." ++ stripScheme cfg.endpoint
    ∧ awsCanonicalHeaders cfg (formatAmzDate d)
        = "host:" ++ awsHost cfg ++ "\n" ++
          "x-amz-content-sha256:" ++ "UNSIGNED-PAYLOAD" ++ "\n" ++
          "x-amz-date:" ++ formatAmzDate d ++ "\n"
    ∧ List.Chain' (fun a b : String => a.data < b.data)
        ["host", "x-amz-content-sha256", "x-amz-date"]
    ∧ String.intercalate ";" ["host", "x-amz-content-sha256", "x-amz-date"]
        = awsSignedHeadersList
    ∧ (generateSignedHeaders cfg method key contentType d).lookup "Authorization"
        = some (awsAlgorithm ++ " Credential=" ++ cfg.accessKeyId ++ "/" ++
            awsCredentialScope cfg (formatDateStamp d) ++
            ", SignedHeaders=" ++ "host;x-amz-content-sha256;x-amz-date" ++
            ", Signature=" ++ awsSignature cfg method key d) := by
  refine ⟨by simp [requestHeaders, haws], rfl, rfl, ?_, by decide, rfl⟩
  exact List.chain'_cons.mpr ⟨by decide,
    List.chain'_cons.mpr ⟨by decide, List.chain'_singleton _⟩⟩

/-- C1 witness: the theorem instantiated at a concrete aws configuration. -/
theorem C1_witness :
    isOssProvider ⟨true, "s3.example.com", "us-east-1", "b", "AK", "SK", "", "", ""⟩ = false
    ∧ awsCanonicalHeaders ⟨true, "s3.example.com", "us-east-1", "b", "AK", "SK", "", "", ""⟩
        (formatAmzDate ⟨2026, 1, 2, 3, 4, 5⟩)
      = "host:" ++ awsHost ⟨true, "s3.example.com", "us-east-1", "b", "AK", "SK", "", "", ""⟩
        ++ "\n" ++ "x-amz-content-sha256:" ++ "UNSIGNED-PAYLOAD" ++ "\n" ++
        "x-amz-date:" ++ formatAmzDate ⟨2026, 1, 2, 3, 4, 5⟩ ++ "\n" :=
  ⟨by decide,
   (C1_v4_host_header_signed _ "PUT" "p/123-abc.png" "image/png" "ds" ⟨2026, 1, 2, 3, 4, 5⟩
      (by decide)).2.2.1⟩

/-- C9: under the SimpleHmac (oss) provider the emitted headers come from
`generateOssHeaders`; the string-to-sign is method, empty content-MD5, content
type, the RFC-1123 date string and the resource `/bucket/key` joined by
newlines; it is signed by a single HMAC-SHA1 keyed by the raw secret and
base64-encoded, and exactly the headers `Date`, `Content-Type` and
`Authorization: OSS <accessKeyId>:<signature>` are emitted. -/
theorem C9_oss_simple_hmac_signer (cfg : S3Config)
    (method key contentType dateStr : String) (d : UTCDate)
    (hoss : isOssProvider cfg = true) :
    requestHeaders cfg method key contentType d dateStr
        = generateOssHeaders cfg method key contentType dateStr
    ∧ ossStringToSign cfg method key contentType dateStr
        = method ++ "\n" ++ "" ++ "\n" ++ contentType ++ "\n" ++ dateStr ++ "\n"
          ++ ossResource cfg key
    ∧ ossResource cfg key = "/" ++ cfg.bucket ++ "/" ++ key
    ∧ hmacSha1Base64 cfg.secretAccessKey (ossStringToSign cfg method key contentType dateStr)
        = base64Encode (hmac sha1 64 (utf8Bytes cfg.secretAccessKey)
            (utf8Bytes (ossStringToSign cfg method key contentType dateStr)))
    ∧ generateOssHeaders cfg method key contentType dateStr
        = [("Date", dateStr),
           ("Content-Type", if contentType = "" then "application/octet-stream" else contentType),
           ("Authorization", "OSS " ++ cfg.accessKeyId ++ ":" ++
              hmacSha1Base64 cfg.secretAccessKey
                (ossStringToSign cfg method key contentType dateStr))] := by
  refine ⟨by simp [requestHeaders, hoss], ?_, rfl, rfl, rfl⟩
  · apply String.ext
    simp [ossStringToSign, String.intercalate, intercalate_go_data,
          String.data_append, List.append_assoc]

/-- C9 witness: the theorem instantiated at a concrete oss configuration. -/
theorem C9_witness :
    isOssProvider ⟨true, "oss-cn.example.com", "r", "bkt", "AK", "SK", "", "", "oss"⟩ = true
    ∧ ossResource ⟨true, "oss-cn.example.com", "r", "bkt", "AK", "SK", "", "", "oss"⟩ "p/k.png"
      = "/" ++ "bkt" ++ "/" ++ "p/k.png" :=
  ⟨by decide,
   (C9_oss_simple_hmac_signer _ "PUT" "p/k.png" "image/png" "Sat, 11 Oct 2026 01:02:03 GMT"
      ⟨2026, 10, 11, 1, 2, 3⟩ (by decide)).2.2.1⟩

/-! ## C2: dedup lookup by hash -/

/-- Rewrite every stored asset record's size, leaving all other fields
untouched (used to express that the hash lookup is size-blind). -/
def setAllSizes (ms : List DocAssetMapping) (sz : Nat) : List DocAssetMapping :=
  ms.map (fun m => { m with assets := m.assets.map (fun a => { a with size := sz }) })

theorem findAssetByHash_setAllSizes (ms : List DocAssetMapping) (h : String) (sz : Nat) :
    findAssetByHash (setAllSizes ms sz) h
      = Option.map (fun a => { a with size := sz }) (findAssetByHash ms h) := by
  induction ms with
  | nil => rfl
  | cons m rest ih =>
      simp only [setAllSizes, List.map_cons, findAssetByHash, List.findSome?_cons] at ih ⊢
      rw [List.find?_map]
      have hpf : ((fun a : AssetUploadRecord => a.hash == h) ∘
          (fun a => { a with size := sz })) = (fun a : AssetUploadRecord => a.hash == h) := rfl
      rw [hpf]
      cases m.assets.find? (fun a => a.hash == h) with
      | some a => rfl
      | none => exact ih

/-- C2 counterexample: `findAssetByHash` matches on the 16-character
fingerprint alone.  The index below stores a record of size 5 under hash
`00112233aabbccdd`; a dedup lookup made on behalf of a blob of any other size
(say 7) with a colliding fingerprint is exactly this call — it returns the
size-5 record, so no size equality is required before reuse, contrary to the
claim. -/
theorem C2_counterexample :
    findAssetByHash
        [⟨"d1", "s1", [⟨"assets/x.png", "kx", "ux", "image/png", 5, "00112233aabbccdd", 7⟩], 0, 0⟩]
        "00112233aabbccdd"
      = some ⟨"assets/x.png", "kx", "ux", "image/png", 5, "00112233aabbccdd", 7⟩
    ∧ (⟨"assets/x.png", "kx", "ux", "image/png", 5, "00112233aabbccdd", 7⟩
        : AssetUploadRecord).size ≠ 7 := by
  exact ⟨rfl, by decide⟩

/-- C2 amended: a dedup lookup by content hash (`findAssetByHash`) matches an
existing record by hash alone: a returned record's `hash` equals the query,
and the lookup verdict is unchanged when every stored record's size is
rewritten arbitrarily (sizes are never compared). -/
theorem C2_find_by_hash_ignores_size (ms : List DocAssetMapping) (h : String)
    (a : AssetUploadRecord) (sz : Nat)
    (hfind : findAssetByHash ms h = some a) :
    a.hash = h
    ∧ (findAssetByHash (setAllSizes ms sz) h).isSome
        = (findAssetByHash ms h).isSome := by
  constructor
  · rcases List.findSome?_eq_some_iff.mp hfind with ⟨l1, m, l2, hms, hsome, hnone⟩
    have hb := @List.find?_some AssetUploadRecord (fun a => a.hash == h) a m.assets hsome
    exact eq_of_beq hb
  · rw [findAssetByHash_setAllSizes]
    cases findAssetByHash ms h with
    | some a => rfl
    | none => rfl

/-- C2 witness: the amended theorem at a concrete index. -/
theorem C2_witness :
    (⟨"assets/b.png", "k2", "u2", "image/png", 6, "h2", 11⟩ : AssetUploadRecord).hash = "h2"
    ∧ (findAssetByHash
          (setAllSizes [⟨"d", "s", [⟨"assets/b.png", "k2", "u2", "image/png", 6, "h2", 11⟩], 0, 0⟩] 9)
          "h2").isSome
      = (findAssetByHash
          [⟨"d", "s", [⟨"assets/b.png", "k2", "u2", "image/png", 6, "h2", 11⟩], 0, 0⟩]
          "h2").isSome :=
  C2_find_by_hash_ignores_size _ "h2" _ 9 (by decide)

/-! ## C3: index invariant -/

theorem nodupDocIds_filter (ms : List DocAssetMapping) (q : DocAssetMapping → Bool)
    (h : NodupDocIds ms) : NodupDocIds (ms.filter q) :=
  List.Nodup.sublist (List.Sublist.map _ (List.filter_sublist ms)) h

theorem noEmpty_filter (ms : List DocAssetMapping) (q : DocAssetMapping → Bool)
    (h : NoEmptyMapping ms) : NoEmptyMapping (ms.filter q) :=
  fun m hm => h m (List.mem_filter.mp hm).1

theorem nodupDocIds_map_preserving (ms : List DocAssetMapping)
    (f : DocAssetMapping → DocAssetMapping) (hf : ∀ m, (f m).docId = m.docId)
    (h : NodupDocIds ms) : NodupDocIds (ms.map f) := by
  unfold NodupDocIds at h ⊢
  rw [List.map_map]
  have heq : ((fun m => m.docId) ∘ f) = (fun m : DocAssetMapping => m.docId) :=
    funext fun m => hf m
  rw [heq]
  exact h

theorem filterMap_docIds_sublist (g : DocAssetMapping → Option DocAssetMapping)
    (ms : List DocAssetMapping)
    (hg : ∀ m x, g m = some x → x.docId = m.docId) :
    ((ms.filterMap g).map (fun m => m.docId)).Sublist
      (ms.map (fun m => m.docId)) := by
  induction ms with
  | nil => simp
  | cons m rest ih =>
      rw [List.filterMap_cons]
      cases hgm : g m with
      | none => exact List.Sublist.cons _ ih
      | some x =>
          rw [List.map_cons, List.map_cons, hg m x hgm]
          exact List.Sublist.cons₂ _ ih

theorem addOrUpdateMapping_invariant (ms : List DocAssetMapping)
    (docId shareId : String) (assets : List AssetUploadRecord) (now : Nat)
    (hInv : IndexInvariant ms) (hA : assets ≠ []) :
    IndexInvariant (addOrUpdateMapping ms docId shareId assets now) := by
  obtain ⟨hN, hE⟩ := hInv
  unfold addOrUpdateMapping
  split
  · constructor
    · refine nodupDocIds_map_preserving ms _ (fun m => ?_) hN
      by_cases hc : (m.docId == docId) = true
      · rw [if_pos hc]
      · rw [if_neg hc]
    · intro x hx
      rcases List.mem_map.mp hx with ⟨m, hm, hfm⟩
      by_cases hc : (m.docId == docId) = true
      · rw [if_pos hc] at hfm
        rw [← hfm]
        exact hA
      · rw [if_neg hc] at hfm
        rw [← hfm]
        exact hE m hm
  · next hnone =>
    have h0 : getMapping ms docId = none := by
      cases hgm : getMapping ms docId with
      | none => rfl
      | some x => rw [hgm] at hnone; simp at hnone
    have hni : ∀ m ∈ ms, ¬ (m.docId == docId) = true :=
      fun m hm => List.find?_eq_none.mp h0 m hm
    constructor
    · unfold NodupDocIds
      rw [List.map_append, List.nodup_append]
      refine ⟨hN, List.nodup_singleton _, ?_⟩
      intro x hx hx2
      rcases List.mem_map.mp hx with ⟨m, hm, hfm⟩
      rcases List.mem_singleton.mp hx2 with rfl
      exact hni m hm (by rw [hfm]; exact beq_self_eq_true _)
    · intro x hx
      rcases List.mem_append.mp hx with h | h
      · exact hE x h
      · rcases List.mem_singleton.mp h with rfl
        exact hA

theorem removeAssetsStep_docId (keys : List String) (now : Nat)
    (m x : DocAssetMapping) (h : removeAssetsStep keys now m = some x) :
    x.docId = m.docId := by
  simp only [removeAssetsStep] at h
  split at h
  · split at h
    · exact Option.noConfusion h
    · cases Option.some_inj.mp h
      rfl
  · cases Option.some_inj.mp h
    rfl

theorem removeAssetsStep_nonempty (keys : List String) (now : Nat)
    (m x : DocAssetMapping) (hm : m.assets ≠ [])
    (h : removeAssetsStep keys now m = some x) : x.assets ≠ [] := by
  simp only [removeAssetsStep] at h
  split at h
  · split at h
    · exact Option.noConfusion h
    · next hne =>
        cases Option.some_inj.mp h
        show List.filter (fun a => !(keys.contains a.s3Key)) m.assets ≠ []
        intro hx
        exact hne (by rw [hx]; rfl)
  · next hge =>
      cases Option.some_inj.mp h
      show List.filter (fun a => !(keys.contains a.s3Key)) m.assets ≠ []
      intro hx
      apply hm
      rw [hx] at hge
      simp only [List.length_nil, Nat.not_lt, Nat.le_zero] at hge
      exact List.length_eq_zero.mp hge

theorem removeAssets_invariant (ms : List DocAssetMapping) (keys : List String)
    (now : Nat) (hInv : IndexInvariant ms) :
    IndexInvariant ((removeAssets ms keys now).1) := by
  obtain ⟨hN, hE⟩ := hInv
  constructor
  · exact List.Nodup.sublist
      (filterMap_docIds_sublist _ ms (removeAssetsStep_docId keys now)) hN
  · intro x hx
    rcases List.mem_filterMap.mp hx with ⟨m, hm, hstep⟩
    exact removeAssetsStep_nonempty keys now m x (hE m hm) hstep

theorem removeAssetFromDoc_invariant (ms : List DocAssetMapping)
    (docId s3Key : String) (now : Nat) (hInv : IndexInvariant ms) :
    IndexInvariant ((removeAssetFromDoc ms docId s3Key now).1) := by
  obtain ⟨hN, hE⟩ := hInv
  unfold removeAssetFromDoc
  cases hgm : getMapping ms docId with
  | none => exact ⟨hN, hE⟩
  | some m =>
      dsimp only
      by_cases h1 : (m.assets.filter (fun a => !(a.s3Key == s3Key))).length
          = m.assets.length
      · rw [if_pos h1]
        exact ⟨hN, hE⟩
      · rw [if_neg h1]
        by_cases h2 : (m.assets.filter (fun a => !(a.s3Key == s3Key))).isEmpty = true
        · rw [if_pos h2]
          exact ⟨nodupDocIds_filter ms _ hN, noEmpty_filter ms _ hE⟩
        · rw [if_neg h2]
          constructor
          · refine nodupDocIds_map_preserving ms _ (fun x => ?_) hN
            by_cases hc : (x.docId == docId) = true
            · rw [if_pos hc]
            · rw [if_neg hc]
          · intro x hx
            rcases List.mem_map.mp hx with ⟨y, hy, hfy⟩
            by_cases hc : (y.docId == docId) = true
            · rw [if_pos hc] at hfy
              rw [← hfy]
              intro habs
              have habs2 : (m.assets.filter (fun a => !(a.s3Key == s3Key))) = [] := habs
              apply h2
              rw [habs2]
              rfl
            · rw [if_neg hc] at hfy
              rw [← hfy]
              exact hE y hy

theorem removeAssetsByFilter_invariant (ms : List DocAssetMapping)
    (p : AssetUploadRecord → String → Bool) (now : Nat)
    (hInv : IndexInvariant ms) :
    IndexInvariant ((removeAssetsByFilter ms p now).1) := by
  unfold removeAssetsByFilter
  by_cases hk : (keysMatching ms p).isEmpty = true
  · rw [if_pos hk]
    exact hInv
  · rw [if_neg hk]
    exact removeAssets_invariant ms _ now hInv

/-- C3 counterexample: calling `addOrUpdateMapping` with an empty asset list
creates (and retains) a mapping whose asset collection is empty, so the
invariant does not hold after every operation as claimed. -/
theorem C3_counterexample :
    addOrUpdateMapping [] "doc1" "share1" [] 0 = [⟨"doc1", "share1", [], 0, 0⟩]
    ∧ ¬ NoEmptyMapping (addOrUpdateMapping [] "doc1" "share1" [] 0) := by
  constructor
  · rfl
  · intro h
    exact h ⟨"doc1", "share1", [], 0, 0⟩ (by rw [show addOrUpdateMapping [] "doc1" "share1" [] 0
        = [⟨"doc1", "share1", [], 0, 0⟩] from rfl]; exact List.mem_singleton.mpr rfl) rfl

/-- C3 amended: starting from an index satisfying the invariant, every
operation of the `AssetRecordManager` preserves "at most one mapping per
document id and no mapping with an empty asset collection" — provided
`addOrUpdateMapping` is invoked with a non-empty asset list (as its only
caller guarantees by guarding on `uploadedAssets.length > 0`). -/
theorem C3_operations_preserve_invariant (ms : List DocAssetMapping)
    (docId shareId s3Key : String) (assets : List AssetUploadRecord) (now : Nat)
    (keys : List String) (p : AssetUploadRecord → String → Bool)
    (hInv : IndexInvariant ms) (hA : assets ≠ []) :
    IndexInvariant (addOrUpdateMapping ms docId shareId assets now)
    ∧ IndexInvariant ((removeAssetFromDoc ms docId s3Key now).1)
    ∧ IndexInvariant ((removeAssets ms keys now).1)
    ∧ IndexInvariant ((removeAssetsByFilter ms p now).1)
    ∧ IndexInvariant (removeMapping ms docId)
    ∧ IndexInvariant (removeMappingByShareId ms shareId) :=
  ⟨addOrUpdateMapping_invariant ms docId shareId assets now hInv hA,
   removeAssetFromDoc_invariant ms docId s3Key now hInv,
   removeAssets_invariant ms keys now hInv,
   removeAssetsByFilter_invariant ms p now hInv,
   ⟨nodupDocIds_filter ms _ hInv.1, noEmpty_filter ms _ hInv.2⟩,
   ⟨nodupDocIds_filter ms _ hInv.1, noEmpty_filter ms _ hInv.2⟩⟩

/-- C3 witness: the amended theorem at a concrete two-document index. -/
theorem C3_witness :
    IndexInvariant (addOrUpdateMapping
      [⟨"d1", "s1", [⟨"assets/a.png", "k1", "u1", "image/png", 5, "h1", 10⟩], 1, 1⟩,
       ⟨"d2", "s2", [⟨"assets/b.png", "k2", "u2", "image/png", 6, "h2", 11⟩], 2, 2⟩]
      "d1" "s9" [⟨"assets/c.png", "k3", "u3", "image/png", 7, "h3", 12⟩] 99)
    ∧ IndexInvariant ((removeAssets
      [⟨"d1", "s1", [⟨"assets/a.png", "k1", "u1", "image/png", 5, "h1", 10⟩], 1, 1⟩,
       ⟨"d2", "s2", [⟨"assets/b.png", "k2", "u2", "image/png", 6, "h2", 11⟩], 2, 2⟩]
      ["k1"] 99).1) :=
  ⟨(C3_operations_preserve_invariant _ "d1" "s9" "k1"
      [⟨"assets/c.png", "k3", "u3", "image/png", 7, "h3", 12⟩] 99 ["k1"]
      (fun _ _ => false) ⟨by decide, by decide⟩ (by decide)).1,
   (C3_operations_preserve_invariant _ "d1" "s9" "k1"
      [⟨"assets/c.png", "k3", "u3", "image/png", 7, "h3", 12⟩] 99 ["k1"]
      (fun _ _ => false) ⟨by decide, by decide⟩ (by decide)).2.2.1⟩

/-! ## C4, C5: batch upload behaviour -/

/-- The record a successful `uploadFile` resolves with (no precomputed
hash). -/
def uploadRecordOf (cfg : S3Config) (f : JsFile) (localPath : String) (now : Nat) :
    AssetUploadRecord :=
  ⟨localPath, s3KeyOf cfg now (calculateFileHash f.content) f.name,
   finalUrl cfg (s3KeyOf cfg now (calculateFileHash f.content) f.name),
   fileContentType f, f.content.length, calculateFileHash f.content, now⟩

theorem validateConfig_enabled (cfg : S3Config) (hv : validateConfig cfg = true) :
    cfg.enabled = true := by
  simp only [validateConfig, Bool.and_eq_true] at hv
  exact hv.1.1.1.1.1

theorem uploadFile_eq_of_valid (cfg : S3Config) (token : String) (f : JsFile)
    (localPath : String) (now : Nat) (e : XhrEvent) (verdict : ProxyVerdict)
    (hv : validateConfig cfg = true) :
    uploadFile cfg token f localPath "" now e verdict
      = match (performUpload cfg (s3KeyOf cfg now (calculateFileHash f.content) f.name)
                token e verdict).result with
        | Except.ok url =>
            Except.ok ⟨localPath, s3KeyOf cfg now (calculateFileHash f.content) f.name,
              url, fileContentType f, f.content.length, calculateFileHash f.content, now⟩
        | Except.error msg => Except.error msg := by
  have he : cfg.enabled = true := validateConfig_enabled cfg hv
  simp [uploadFile, he, hv]

theorem uploadFilesGo_append (cfg : S3Config) (token : String)
    (l1 l2 : List BatchItem) :
    uploadFilesGo cfg token (l1 ++ l2)
      = ((uploadFilesGo cfg token l1).1 ++ (uploadFilesGo cfg token l2).1,
         (uploadFilesGo cfg token l1).2 ++ (uploadFilesGo cfg token l2).2) := by
  induction l1 with
  | nil => simp [uploadFilesGo]
  | cons it rest ih =>
      rw [List.cons_append]
      show (match uploadFile cfg token it.file it.localPath "" it.now it.direct it.relay with
            | Except.ok r =>
                (r :: (uploadFilesGo cfg token (rest ++ l2)).1,
                 (uploadFilesGo cfg token (rest ++ l2)).2)
            | Except.error msg =>
                ((uploadFilesGo cfg token (rest ++ l2)).1,
                 (it.localPath ++ ": " ++ msg) :: (uploadFilesGo cfg token (rest ++ l2)).2)) = _
      cases h : uploadFile cfg token it.file it.localPath "" it.now it.direct it.relay with
      | ok r => simp [uploadFilesGo, h, ih]
      | error msg => simp [uploadFilesGo, h, ih]

/-- C4: when a file's direct PUT fails at the transport level and the
forwardProxy relay succeeds, `uploadFile` resolves with the same record —
including the same derived remote URL (custom-domain rule included) — as a
successful direct upload of the same key, and that file appears among the
successes of any batch containing it. -/
theorem C4_relay_url_equals_direct (cfg : S3Config) (token : String) (f : JsFile)
    (localPath : String) (now : Nat)
    (hv : validateConfig cfg = true) (ht : token ≠ "") :
    uploadFile cfg token f localPath "" now XhrEvent.networkError ProxyVerdict.ok
      = Except.ok (uploadRecordOf cfg f localPath now)
    ∧ (∀ s body verdict, 200 ≤ s → s < 300 →
        uploadFile cfg token f localPath "" now (XhrEvent.response s body) verdict
          = Except.ok (uploadRecordOf cfg f localPath now))
    ∧ (∀ pre post, uploadRecordOf cfg f localPath now ∈ uploadFilesReturn cfg token
          (pre ++ ⟨f, localPath, now, XhrEvent.networkError, ProxyVerdict.ok⟩ :: post)) := by
  have h1 : uploadFile cfg token f localPath "" now XhrEvent.networkError ProxyVerdict.ok
      = Except.ok (uploadRecordOf cfg f localPath now) := by
    rw [uploadFile_eq_of_valid cfg token f localPath now _ _ hv]
    simp [performUpload, uploadViaForwardProxy, ht, uploadRecordOf]
  refine ⟨h1, ?_, ?_⟩
  · intro s body verdict hs1 hs2
    rw [uploadFile_eq_of_valid cfg token f localPath now _ _ hv]
    simp [performUpload, uploadRecordOf, if_pos (And.intro hs1 hs2)]
  · intro pre post
    unfold uploadFilesReturn uploadFiles
    rw [uploadFilesGo_append]
    refine List.mem_append_right _ ?_
    show uploadRecordOf cfg f localPath now ∈
      (match uploadFile cfg token f localPath "" now XhrEvent.networkError ProxyVerdict.ok with
       | Except.ok r => (r :: (uploadFilesGo cfg token post).1, (uploadFilesGo cfg token post).2)
       | Except.error msg =>
           ((uploadFilesGo cfg token post).1,
            (localPath ++ ": " ++ msg) :: (uploadFilesGo cfg token post).2)).1
    rw [h1]
    exact List.mem_cons_self _ _

/-- C4 witness: a concrete one-file batch whose direct transport fails and
whose relay succeeds. -/
theorem C4_witness :
    uploadFile ⟨true, "s3.example.com", "us-east-1", "b", "AK", "SK", "", "", ""⟩
        "tok" ⟨"a.png", "image/png", [1, 2, 3]⟩ "assets/a.png" "" 111
        XhrEvent.networkError ProxyVerdict.ok
      = Except.ok (uploadRecordOf ⟨true, "s3.example.com", "us-east-1", "b", "AK", "SK", "", "", ""⟩
          ⟨"a.png", "image/png", [1, 2, 3]⟩ "assets/a.png" 111)
    ∧ uploadRecordOf ⟨true, "s3.example.com", "us-east-1", "b", "AK", "SK", "", "", ""⟩
          ⟨"a.png", "image/png", [1, 2, 3]⟩ "assets/a.png" 111
        ∈ uploadFilesReturn ⟨true, "s3.example.com", "us-east-1", "b", "AK", "SK", "", "", ""⟩
          "tok" ([] ++ ⟨⟨"a.png", "image/png", [1, 2, 3]⟩, "assets/a.png", 111,
                  XhrEvent.networkError, ProxyVerdict.ok⟩ :: []) :=
  ⟨(C4_relay_url_equals_direct _ "tok" _ "assets/a.png" 111 (by decide) (by decide)).1,
   (C4_relay_url_equals_direct _ "tok" _ "assets/a.png" 111 (by decide) (by decide)).2.2 [] []⟩

/-- C5 amended: one file's failure does not abort the batch — every file is
processed and contributes either a success record or a collected error — and
the collected per-file errors are surfaced to the user in one aggregate
notification; but the value `uploadFiles` returns to its caller is the list
of successful records only (the errors are not part of the return value). -/
theorem C5_batch_collects_errors (cfg : S3Config) (token : String)
    (items : List BatchItem) :
    (uploadFiles cfg token items).1
      = items.filterMap (fun it =>
          (uploadFile cfg token it.file it.localPath "" it.now it.direct it.relay).toOption)
    ∧ (uploadFiles cfg token items).2
      = items.filterMap (fun it =>
          match uploadFile cfg token it.file it.localPath "" it.now it.direct it.relay with
          | Except.ok _ => none
          | Except.error msg => some (it.localPath ++ ": " ++ msg))
    ∧ uploadFilesReturn cfg token items = (uploadFiles cfg token items).1
    ∧ uploadFilesMessage cfg token items
      = (if (uploadFiles cfg token items).2.isEmpty then none
         else some ("部分文件上传失败:\n" ++
            String.intercalate "\n" (uploadFiles cfg token items).2)) := by
  refine ⟨?_, ?_, rfl, rfl⟩
  · induction items with
    | nil => rfl
    | cons it rest ih =>
        show (uploadFilesGo cfg token (it :: rest)).1 = _
        rw [List.filterMap_cons]
        cases h : uploadFile cfg token it.file it.localPath "" it.now it.direct it.relay with
        | ok r =>
            simp only [uploadFilesGo, h, Except.toOption]
            rw [show (uploadFilesGo cfg token rest).1 = (uploadFiles cfg token rest).1 from rfl,
                ih]
            rfl
        | error msg =>
            simp only [uploadFilesGo, h, Except.toOption]
            rw [show (uploadFilesGo cfg token rest).1 = (uploadFiles cfg token rest).1 from rfl,
                ih]
            rfl
  · induction items with
    | nil => rfl
    | cons it rest ih =>
        show (uploadFilesGo cfg token (it :: rest)).2 = _
        rw [List.filterMap_cons]
        cases h : uploadFile cfg token it.file it.localPath "" it.now it.direct it.relay with
        | ok r =>
            simp only [uploadFilesGo, h]
            rw [show (uploadFilesGo cfg token rest).2 = (uploadFiles cfg token rest).2 from rfl,
                ih]
        | error msg =>
            simp only [uploadFilesGo, h]
            rw [show (uploadFilesGo cfg token rest).2 = (uploadFiles cfg token rest).2 from rfl,
                ih]

/-- C5 counterexample: in a two-file batch where the first file fails with an
HTTP 500 and the second succeeds, the second file is still processed and the
error is collected and shown — but the value returned to the caller contains
only the one successful record and carries no error information, so the
per-file errors are not "returned alongside the successes" as claimed. -/
theorem C5_counterexample :
    (uploadFilesReturn ⟨true, "s3.example.com", "us-east-1", "b", "AK", "SK", "", "", ""⟩
        "tok"
        [⟨⟨"a.png", "image/png", [1, 2, 3]⟩, "assets/a.png", 111,
            XhrEvent.response 500 "boom", ProxyVerdict.ok⟩,
         ⟨⟨"b.png", "image/png", [4, 5]⟩, "assets/b.png", 222,
            XhrEvent.response 200 "", ProxyVerdict.ok⟩]).map (fun r => r.localPath)
      = ["assets/b.png"]
    ∧ (uploadFiles ⟨true, "s3.example.com", "us-east-1", "b", "AK", "SK", "", "", ""⟩
        "tok"
        [⟨⟨"a.png", "image/png", [1, 2, 3]⟩, "assets/a.png", 111,
            XhrEvent.response 500 "boom", ProxyVerdict.ok⟩,
         ⟨⟨"b.png", "image/png", [4, 5]⟩, "assets/b.png", 222,
            XhrEvent.response 200 "", ProxyVerdict.ok⟩]).2
      = ["assets/a.png: S3 上传失败: HTTP 500 - boom"]
    ∧ uploadFilesMessage ⟨true, "s3.example.com", "us-east-1", "b", "AK", "SK", "", "", ""⟩
        "tok"
        [⟨⟨"a.png", "image/png", [1, 2, 3]⟩, "assets/a.png", 111,
            XhrEvent.response 500 "boom", ProxyVerdict.ok⟩,
         ⟨⟨"b.png", "image/png", [4, 5]⟩, "assets/b.png", 222,
            XhrEvent.response 200 "", ProxyVerdict.ok⟩]
      = some "部分文件上传失败:\nassets/a.png: S3 上传失败: HTTP 500 - boom" := by
  refine ⟨by decide, by decide, by decide⟩

/-! ## C6: idempotent skip via the dedup index -/

theorem collectAssets_mem (ms : List DocAssetMapping) (fetch : String → Option JsFile)
    (paths : List String) (p : String) (a : AssetUploadRecord)
    (hp : p ∈ paths) (hfind : findAssetByLocalPath ms p = some a) :
    a ∈ (collectAssets ms fetch paths).1 := by
  induction paths with
  | nil => cases hp
  | cons q rest ih =>
      rcases List.mem_cons.mp hp with rfl | hmem
      · show a ∈ (match findAssetByLocalPath ms p with
          | some a => (a :: (collectAssets ms fetch rest).1, (collectAssets ms fetch rest).2)
          | none =>
            match fetch p with
            | some f => ((collectAssets ms fetch rest).1,
                (f, p) :: (collectAssets ms fetch rest).2)
            | none => collectAssets ms fetch rest).1
        rw [hfind]
        exact List.mem_cons_self _ _
      · show a ∈ (match findAssetByLocalPath ms q with
          | some a => (a :: (collectAssets ms fetch rest).1, (collectAssets ms fetch rest).2)
          | none =>
            match fetch q with
            | some f => ((collectAssets ms fetch rest).1,
                (f, q) :: (collectAssets ms fetch rest).2)
            | none => collectAssets ms fetch rest).1
        cases hq : findAssetByLocalPath ms q with
        | some b => exact List.mem_cons_of_mem _ (ih hmem)
        | none =>
            cases hf : fetch q with
            | some f => exact ih hmem
            | none => exact ih hmem

theorem collectAssets_toUpload (ms : List DocAssetMapping)
    (fetch : String → Option JsFile) (paths : List String) :
    ∀ fp ∈ (collectAssets ms fetch paths).2, findAssetByLocalPath ms fp.2 = none := by
  induction paths with
  | nil => intro fp hfp; cases hfp
  | cons q rest ih =>
      intro fp hfp
      revert hfp
      show fp ∈ (match findAssetByLocalPath ms q with
          | some a => (a :: (collectAssets ms fetch rest).1, (collectAssets ms fetch rest).2)
          | none =>
            match fetch q with
            | some f => ((collectAssets ms fetch rest).1,
                (f, q) :: (collectAssets ms fetch rest).2)
            | none => collectAssets ms fetch rest).2 → _
      cases hq : findAssetByLocalPath ms q with
      | some b => exact fun hfp => ih fp hfp
      | none =>
          cases hf : fetch q with
          | some f =>
              intro hfp
              rcases List.mem_cons.mp hfp with rfl | hmem
              · exact hq
              · exact ih fp hmem
          | none => exact fun hfp => ih fp hfp

/-- C6: a local path that already has a recorded asset in the dedup index is
never uploaded again — it is absent from the list of files sent to the
network — and the previously recorded `AssetUploadRecord` (with its stored
`s3Url`) is included in the returned asset list. -/
theorem C6_recorded_path_skips_upload (cfg : S3Config) (env : UploadEnv)
    (ms : List DocAssetMapping) (paths : List String) (p : String)
    (a : AssetUploadRecord)
    (hfind : findAssetByLocalPath ms p = some a) (hp : p ∈ paths) :
    a ∈ (processAndUploadAssets cfg env ms paths).1
    ∧ ∀ fp ∈ (processAndUploadAssets cfg env ms paths).2, fp.2 ≠ p := by
  constructor
  · exact List.mem_append_left _ (collectAssets_mem ms env.fetch paths p a hp hfind)
  · intro fp hfp heq
    have hnone := collectAssets_toUpload ms env.fetch paths fp hfp
    rw [heq, hfind] at hnone
    exact Option.noConfusion hnone

/-- C6 witness: the theorem at a concrete one-mapping index and one-path
document; the recorded record is returned and nothing is uploaded. -/
theorem C6_witness :
    (⟨"assets/a.png", "k1", "u1", "image/png", 5, "h1", 10⟩ : AssetUploadRecord)
      ∈ (processAndUploadAssets
          ⟨true, "s3.example.com", "us-east-1", "b", "AK", "SK", "", "", ""⟩
          ⟨"tok", fun _ => none, fun _ => 0, fun _ => XhrEvent.networkError,
            fun _ => ProxyVerdict.ok⟩
          [⟨"d1", "s1", [⟨"assets/a.png", "k1", "u1", "image/png", 5, "h1", 10⟩], 1, 1⟩]
          ["assets/a.png"]).1
    ∧ ∀ fp ∈ (processAndUploadAssets
          ⟨true, "s3.example.com", "us-east-1", "b", "AK", "SK", "", "", ""⟩
          ⟨"tok", fun _ => none, fun _ => 0, fun _ => XhrEvent.networkError,
            fun _ => ProxyVerdict.ok⟩
          [⟨"d1", "s1", [⟨"assets/a.png", "k1", "u1", "image/png", 5, "h1", 10⟩], 1, 1⟩]
          ["assets/a.png"]).2, fp.2 ≠ "assets/a.png" :=
  C6_recorded_path_skips_upload _ _ _ ["assets/a.png"] "assets/a.png" _
    (by decide) (List.mem_singleton.mpr rfl)

end SiyuanShare
